import Mathlib

/-
Verification of the Level-1 QC rule engine of Control_Calidad
(src/Aplicativo_Nivel1.py): the range classifier (verificar_limites),
the temporal stability detector (consistencia_temporal), the internal
consistency ratio check (Bandera_CI over the ratio column), and the
status fuser (estado_final).

Numeric channel values are embedded as Option ℚ: `none` stands for a
missing value (NaN after pandas coercion), `some q` for a present
numeric value.  The pandas division PM25/PM10 is embedded as a value in
RatioVal, which keeps the IEEE outcomes the float division can produce:
NaN (either operand missing, or 0/0), +inf (positive/0), -inf
(negative/0), or an ordinary number.
-/

namespace ControlCalidad

/-- Flags produced by the QC checks: the strings "C", "D", "M", "ND",
"Dudoso" of the source. -/
inductive Flag
  | C
  | D
  | M
  | ND
  | Dudoso
deriving DecidableEq, Repr, Fintype

/-- One hourly record: the six channels of the `limites` dict, each
optional (NaN embedded as `none`). -/
structure Record where
  pm25_conc : Option ℚ
  pm25_flow : Option ℚ
  pm25_amb_temp : Option ℚ
  pm25_amb_rh : Option ℚ
  pm25_baro_pres : Option ℚ
  pm10_conc : Option ℚ
deriving DecidableEq, Repr

/-- Line 107 of the source: a present value is out of range when it is
below a given lower bound or above a given upper bound; an absent bound
(None) imposes no constraint. -/
def fuera_de_rango (lim_inf lim_sup : Option ℚ) (valor : ℚ) : Bool :=
  (match lim_inf with
   | some l => decide (valor < l)
   | none => false)
  ||
  (match lim_sup with
   | some s => decide (valor > s)
   | none => false)

/-- The out-of-range test applied to an optional value: a missing value
is skipped by the loop (the `continue` on line 97), so it is never out
of range. -/
def presente_fuera (lim_inf lim_sup : Option ℚ) (v : Option ℚ) : Bool :=
  match v with
  | none => false
  | some x => fuera_de_rango lim_inf lim_sup x

/-- The loop of verificar_limites sets tiene_alguna_variable when some
channel of the limites dict is present. -/
def tiene_alguna_variable (row : Record) : Bool :=
  row.pm25_conc.isSome || row.pm25_flow.isSome || row.pm25_amb_temp.isSome
    || row.pm25_amb_rh.isSome || row.pm25_baro_pres.isSome || row.pm10_conc.isSome

/-- tiene_dato_conc: some concentration channel (vars_conc =
[PM10_CONC_Avg, PM25_CONC_Avg]) is present. -/
def tiene_dato_conc (row : Record) : Bool :=
  row.pm25_conc.isSome || row.pm10_conc.isSome

/-- tiene_no_conc_vacia: some non-concentration (auxiliary) channel is
missing. -/
def tiene_no_conc_vacia (row : Record) : Bool :=
  row.pm25_flow.isNone || row.pm25_amb_temp.isNone
    || row.pm25_amb_rh.isNone || row.pm25_baro_pres.isNone

/-- tiene_fuera_rango: some present channel violates its bound from the
limites dict: PM25_CONC [0, 6000], PM25_FLOW [1.164, 1.236],
PM25_AMB_TEMP [-20, 50], PM25_AMB_RH (None, 95], PM25_BARO_PRES
[900, 1100], PM10_CONC [0, 10000]. -/
def tiene_fuera_rango (row : Record) : Bool :=
  presente_fuera (some 0) (some 6000) row.pm25_conc
    || presente_fuera (some 1.164) (some 1.236) row.pm25_flow
    || presente_fuera (some (-20)) (some 50) row.pm25_amb_temp
    || presente_fuera none (some 95) row.pm25_amb_rh
    || presente_fuera (some 900) (some 1100) row.pm25_baro_pres
    || presente_fuera (some 0) (some 10000) row.pm10_conc

/-- concentraciones_dentro_rango: no present concentration channel
violates its bound (the loop clears the flag exactly when a
concentration channel is out of range). -/
def concentraciones_dentro_rango (row : Record) : Bool :=
  !(presente_fuera (some 0) (some 6000) row.pm25_conc
      || presente_fuera (some 0) (some 10000) row.pm10_conc)

/-- verificar_limites (lines 82-121): the range classifier.  The rules,
in source order: empty row → ND; no concentration datum → ND; any
present channel out of range → M; some auxiliary channel missing while
the present concentrations are within range → Dudoso; otherwise C. -/
def verificar_limites (row : Record) : Flag :=
  if !(tiene_alguna_variable row) then .ND
  else if !(tiene_dato_conc row) then .ND
  else if tiene_fuera_rango row then .M
  else if tiene_no_conc_vacia row && concentraciones_dentro_rango row then .Dudoso
  else .C

/-- The flag computed by consistencia_temporal (lines 128-149) at one
position i of the series.  `serie.getD i none` is the series access
serie[i] (positions outside the list read as missing; the source only
reads i-1, i-2 when i ≥ 2 and i+1 when i is not the last index, so the
default is never the deciding value at those reads).  Note the look-ahead
comparison serie[i+1] != a of line 143 is true both when serie[i+1] is a
different number and when serie[i+1] is NaN (NaN != a holds in Python),
hence the embedded condition `serie.getD (i+1) none ≠ some a`. -/
def ctFlag (serie : List (Option ℚ)) (i : ℕ) : Flag :=
  match serie.getD i none with
  | none => .ND
  | some a =>
    if 2 ≤ i then
      match serie.getD (i - 1) none, serie.getD (i - 2) none with
      | some b, some c =>
        if a = b ∧ b = c ∧ (i = serie.length - 1 ∨ serie.getD (i + 1) none ≠ some a)
        then .D else .C
      | _, _ => .C
    else .C

/-- consistencia_temporal: one flag per position of the series, in
order. -/
def consistencia_temporal (serie : List (Option ℚ)) : List Flag :=
  (List.range serie.length).map (ctFlag serie)

/-- The value of the pandas float division PM25_CONC_Avg /
PM10_CONC_Avg (line 157): NaN when an operand is missing, and the IEEE
outcomes for a zero denominator (0/0 = NaN, positive/0 = +inf,
negative/0 = -inf); otherwise the exact quotient. -/
inductive RatioVal
  | nan
  | posInf
  | negInf
  | num (q : ℚ)
deriving DecidableEq, Repr

/-- The ratio column: PM25_CONC_Avg / PM10_CONC_Avg under pandas float
semantics. -/
def ratio (pm25 pm10 : Option ℚ) : RatioVal :=
  match pm25, pm10 with
  | none, _ => .nan
  | some _, none => .nan
  | some a, some b =>
    if b = 0 then
      if a = 0 then .nan
      else if 0 < a then .posInf
      else .negInf
    else .num (a / b)

/-- pd.isna on a ratio value: true exactly on NaN (inf is not NA). -/
def RatioVal.isna : RatioVal → Bool
  | .nan => true
  | _ => false

/-- The comparison x > 1 on a ratio value: +inf > 1 holds, -inf > 1 and
NaN > 1 do not. -/
def RatioVal.gtOne : RatioVal → Bool
  | .nan => false
  | .posInf => true
  | .negInf => false
  | .num q => decide (1 < q)

/-- Bandera_CI (lines 158-160): the lambda
`'ND' if pd.isna(x) else ('D' if x > 1 else 'C')` over the ratio
column; one flag shared by Bandera_CI_PM25 and Bandera_CI_PM10. -/
def Bandera_CI (x : RatioVal) : Flag :=
  if x.isna then .ND else if x.gtOne then .D else .C

/-- estado_final (lines 174-184) applied to the three flag columns
selected on lines 186-187.  The three inputs are always flag strings
produced by the previous checks, never NaN, so the guard
`filas.isna().all()` of line 175 is false and `pd.notna(f)` of line 181
is true on every input: the first branch never fires and the all-C test
ranges over all three inputs, ND and Dudoso included. -/
def estado_final (f1 f2 f3 : Flag) : Flag :=
  if f1 = .M ∨ f2 = .M ∨ f3 = .M then .M
  else if f1 = .D ∨ f2 = .D ∨ f3 = .D then .D
  else if f1 = .C ∧ f2 = .C ∧ f3 = .C then .C
  else .ND

/-- Reading the output of consistencia_temporal at a position inside the
series gives the flag ctFlag computes there. -/
theorem ct_getD (serie : List (Option ℚ)) (i : ℕ) (h : i < serie.length) :
    (consistencia_temporal serie).getD i .C = ctFlag serie i := by
  unfold consistencia_temporal
  rw [List.getD_eq_getElem?_getD, List.getElem?_map, List.getElem?_range h]
  rfl

/-- Reading the output of consistencia_temporal past the end of the
series gives the getD default. -/
theorem ct_getD_out (serie : List (Option ℚ)) (i : ℕ) (h : serie.length ≤ i) :
    (consistencia_temporal serie).getD i .C = .C := by
  apply List.getD_eq_default
  simpa [consistencia_temporal]

/-- Claim C1: with pm25_conc = 5 and pm10_conc = 0 the pandas division
produces +inf, which is not NA and compares greater than 1, so the
Bandera_CI lambda flags D: the undefined ratio is NOT routed to a
distinct non-D, non-C branch as the claim requires. -/
theorem C1_ratio_cero_da_D :
    ratio (some 5) (some 0) = .posInf
    ∧ Bandera_CI (ratio (some 5) (some 0)) = .D
    ∧ Bandera_CI (ratio (some 5) (some 0)) ≠ .ND := by
  decide

/-- Claim C2, counterexample: the input triple (C, C, ND) — no M, no D,
no Dudoso, one input absent, every other input C — fuses to ND, not to
C as the claim states. -/
theorem C2_contraejemplo :
    estado_final .C .C .ND = .ND ∧ estado_final .C .C .ND ≠ .C := by
  decide

/-- Claim C2, amended: for triples over {C, ND} containing at least one
C, the final flag is C exactly when all three inputs are C; any ND
input forces the catch-all ND, because the all-C test of the source
ranges over every input (the string ND is never NaN, so pd.notna skips
nothing). -/
theorem C2_fusion_parcial (f1 f2 f3 : Flag)
    (h1 : f1 = .C ∨ f1 = .ND) (h2 : f2 = .C ∨ f2 = .ND) (h3 : f3 = .C ∨ f3 = .ND)
    (hC : f1 = .C ∨ f2 = .C ∨ f3 = .C) :
    estado_final f1 f2 f3 = if f1 = .C ∧ f2 = .C ∧ f3 = .C then .C else .ND := by
  rcases h1 with rfl | rfl <;> rcases h2 with rfl | rfl <;> rcases h3 with rfl | rfl <;> decide

/-- Witness for the amended C2 at the concrete triple (C, C, ND). -/
theorem C2_fusion_parcial_witness : estado_final .C .C .ND = .ND := by
  have h := C2_fusion_parcial .C .C .ND (Or.inl rfl) (Or.inl rfl) (Or.inr rfl) (Or.inl rfl)
  exact h.trans (by decide)

/-- Claim C4: the five concrete fuser cases: (M,C,C) fuses to M,
(C,D,C) to D, (C,C,C) to C, (ND,ND,ND) to ND, and (Dudoso,C,C) to ND. -/
theorem C4_casos_fusion :
    estado_final .M .C .C = .M
    ∧ estado_final .C .D .C = .D
    ∧ estado_final .C .C .C = .C
    ∧ estado_final .ND .ND .ND = .ND
    ∧ estado_final .Dudoso .C .C = .ND := by
  decide

/-- Claim C6: whenever both concentration channels are absent the range
classifier returns ND, whatever the auxiliary channels hold (an
all-absent record is the special case with every auxiliary also none);
the out-of-range rule is only reached afterwards, so even a present
out-of-range auxiliary value cannot change the answer. -/
theorem C6_sin_concentraciones (r : Record)
    (h25 : r.pm25_conc = none) (h10 : r.pm10_conc = none) :
    verificar_limites r = .ND := by
  have hdc : tiene_dato_conc r = false := by
    simp [tiene_dato_conc, h25, h10]
  unfold verificar_limites
  rw [hdc]
  cases h : tiene_alguna_variable r <;> simp

/-- Witness for C6: both concentrations absent and an out-of-range
present auxiliary (flow = 2000) still give ND. -/
theorem C6_sin_concentraciones_witness :
    verificar_limites ⟨none, some 2000, none, none, none, none⟩ = .ND :=
  C6_sin_concentraciones ⟨none, some 2000, none, none, none, none⟩ rfl rfl

/-- Claim C8: the internal consistency check returns ND when either
concentration is absent; with both present and a non-zero denominator
it returns D exactly when the quotient exceeds 1 and C otherwise
(ratio exactly 1 included); and on the concrete inputs 12/10 it gives
D and 10/10 gives C. -/
theorem C8_consistencia_interna :
    (∀ a b : Option ℚ, a = none ∨ b = none → Bandera_CI (ratio a b) = .ND)
    ∧ (∀ a b : ℚ, b ≠ 0 →
        Bandera_CI (ratio (some a) (some b)) = if 1 < a / b then .D else .C)
    ∧ Bandera_CI (ratio (some 12) (some 10)) = .D
    ∧ Bandera_CI (ratio (some 10) (some 10)) = .C := by
  refine ⟨?_, ?_, ?_, ?_⟩
  · rintro a b (rfl | rfl)
    · rfl
    · cases a <;> rfl
  · intro a b hb
    simp only [ratio, if_neg hb, Bandera_CI, RatioVal.isna, RatioVal.gtOne]
    by_cases h : 1 < a / b <;> simp [h]
  · norm_num [ratio, Bandera_CI, RatioVal.isna, RatioVal.gtOne]
  · norm_num [ratio, Bandera_CI, RatioVal.isna, RatioVal.gtOne]

/-- Witness for C8: the absent-operand clause at (none, some 3), and the
quotient clause at 12/10, whose ratio exceeds 1. -/
theorem C8_consistencia_interna_witness :
    Bandera_CI (ratio none (some 3)) = .ND
    ∧ Bandera_CI (ratio (some 12) (some 10)) = .D := by
  constructor
  · exact C8_consistencia_interna.1 none (some 3) (Or.inl rfl)
  · have h := C8_consistencia_interna.2.1 12 10 (by norm_num)
    rw [h]
    norm_num

/-- Claim C3: at every position of the series the temporal detector
gives ND when the value there is absent, D when the position is at
least 2, the three values at i, i-1, i-2 are present and equal, and the
position is last or the value after it differs (an absent successor
differs from a present value, as NaN does under the source's !=
comparison), and C otherwise; and the two example series [5,5,5,5,9]
and [5,5,5] map to [C,C,C,D,C] and [C,C,D]. -/
theorem C3_regla_temporal (serie : List (Option ℚ)) (i : ℕ) (h : i < serie.length) :
    ((consistencia_temporal serie).getD i .C =
      match serie.getD i none with
      | none => Flag.ND
      | some a =>
        if 2 ≤ i ∧ serie.getD (i - 1) none = some a ∧ serie.getD (i - 2) none = some a
            ∧ (i = serie.length - 1 ∨ serie.getD (i + 1) none ≠ some a)
        then Flag.D else Flag.C)
    ∧ consistencia_temporal [some 5, some 5, some 5, some 5, some 9] = [.C, .C, .C, .D, .C]
    ∧ consistencia_temporal [some 5, some 5, some 5] = [.C, .C, .D] := by
  refine ⟨?_, by decide, by decide⟩
  rw [ct_getD serie i h]
  unfold ctFlag
  cases hsi : serie.getD i none with
  | none => rfl
  | some a =>
    dsimp only
    by_cases h2 : 2 ≤ i
    · rw [if_pos h2]
      cases hm1 : serie.getD (i - 1) none with
      | none =>
        cases hm2 : serie.getD (i - 2) none <;> simp [h2]
      | some b =>
        cases hm2 : serie.getD (i - 2) none with
        | none => simp [h2]
        | some c =>
          by_cases hab : a = b
          · subst hab
            by_cases hac : a = c
            · subst hac
              simp [h2]
            · simp [Ne.symm hac]
              exact fun hx => absurd hx hac
          · simp [Ne.symm hab]
            exact fun hx _ => absurd hx hab
    · rw [if_neg h2]
      simp [h2]

/-- Witness for C3: position 2 of the series [5,5,5], where the rule
gives D. -/
theorem C3_regla_temporal_witness :
    (consistencia_temporal [some 5, some 5, some 5]).getD 2 .C = .D := by
  have h := (C3_regla_temporal [some 5, some 5, some 5] 2 (by decide)).1
  exact h.trans (by decide)

/-- Claim C5: a maximal run of three or more identical present values
(positions s..e, all equal to v, not extendable on either side) gets
exactly one D from the temporal detector, at its last position e; no
position strictly inside the run is flagged D, and positions 0 and 1 of
any series are never flagged D. -/
theorem C5_corrida_estancada (serie : List (Option ℚ)) (v : ℚ) (s e : ℕ)
    (he : e < serie.length) (hse : s + 2 ≤ e)
    (hrun : ∀ j, s ≤ j → j ≤ e → serie.getD j none = some v)
    (hmaxL : s = 0 ∨ serie.getD (s - 1) none ≠ some v)
    (hmaxR : e = serie.length - 1 ∨ serie.getD (e + 1) none ≠ some v) :
    (consistencia_temporal serie).getD e .C = .D
    ∧ (∀ j, s ≤ j → j < e → (consistencia_temporal serie).getD j .C ≠ .D)
    ∧ (∀ t : List (Option ℚ), ∀ i : ℕ, i < 2 → (consistencia_temporal t).getD i .C ≠ .D) := by
  clear hmaxL
  refine ⟨?_, ?_, ?_⟩
  · rw [ct_getD serie e he]
    unfold ctFlag
    have h0 : serie.getD e none = some v := hrun e (by omega) le_rfl
    have h1 : serie.getD (e - 1) none = some v := hrun (e - 1) (by omega) (by omega)
    have h2 : serie.getD (e - 2) none = some v := hrun (e - 2) (by omega) (by omega)
    rw [h0]
    dsimp only
    rw [if_pos (show 2 ≤ e by omega), h1, h2]
    dsimp only
    rcases hmaxR with hR | hR
    · simp [hR]
    · rw [List.getD_eq_getElem?_getD] at hR
      simp [hR]
  · intro j hsj hje
    have hj : j < serie.length := by omega
    rw [ct_getD serie j hj]
    unfold ctFlag
    have hjv : serie.getD j none = some v := hrun j hsj (by omega)
    have hjn : serie.getD (j + 1) none = some v := hrun (j + 1) (by omega) (by omega)
    rw [hjv]
    dsimp only
    by_cases h2 : 2 ≤ j
    · rw [if_pos h2]
      cases hm1 : serie.getD (j - 1) none with
      | none =>
        cases hm2 : serie.getD (j - 2) none <;> simp
      | some b =>
        cases hm2 : serie.getD (j - 2) none with
        | none => simp
        | some c =>
          dsimp only
          rw [if_neg ?hcond]
          · simp
          case hcond =>
            rintro ⟨-, -, hor | hne⟩
            · omega
            · exact hne hjn
    · rw [if_neg h2]
      simp
  · intro t i hi
    by_cases ht : i < t.length
    · rw [ct_getD t i ht]
      unfold ctFlag
      cases t.getD i none with
      | none => simp
      | some a =>
        dsimp only
        rw [if_neg (by omega)]
        simp
    · rw [ct_getD_out t i (le_of_not_lt ht)]
      simp

/-- Witness for C5: the maximal run of 5s at positions 0..3 of
[5,5,5,5,9] puts its one D at position 3. -/
theorem C5_corrida_estancada_witness :
    (consistencia_temporal [some 5, some 5, some 5, some 5, some 9]).getD 3 .C = .D :=
  (C5_corrida_estancada [some 5, some 5, some 5, some 5, some 9] 5 0 3 (by decide) (by decide)
    (fun j h1 h2 => by interval_cases j <;> rfl)
    (Or.inl rfl)
    (Or.inr (by decide))).1

/-- Claim C7, counterexample: a record whose only present channel is an
out-of-range auxiliary (flow = 2) while both concentrations are absent
is classified ND, not M: the no-concentration rule precedes the
out-of-range rule, so an out-of-range present channel does not always
produce M. -/
theorem C7_contraejemplo :
    tiene_fuera_rango ⟨none, some 2, none, none, none, none⟩ = true
    ∧ verificar_limites ⟨none, some 2, none, none, none, none⟩ = .ND
    ∧ verificar_limites ⟨none, some 2, none, none, none, none⟩ ≠ .M := by
  refine ⟨?_, ?_, ?_⟩
  · norm_num [tiene_fuera_rango, presente_fuera, fuera_de_rango]
  · norm_num [verificar_limites, tiene_alguna_variable, tiene_dato_conc,
      tiene_no_conc_vacia, tiene_fuera_rango, concentraciones_dentro_rango,
      presente_fuera, fuera_de_rango]
  · norm_num [verificar_limites, tiene_alguna_variable, tiene_dato_conc,
      tiene_no_conc_vacia, tiene_fuera_rango, concentraciones_dentro_rango,
      presente_fuera, fuera_de_rango]
    decide

/-- Claim C7, amended: bounds are inclusive — the all-present record
with pm25_amb_rh exactly at its bound 95 is C, one unit beyond (96) is
M — and, provided at least one concentration channel is present (so the
ND rules of steps 1-2 do not fire first), any present channel out of
its bound makes the whole record M. -/
theorem C7_limites_inclusivos :
    verificar_limites ⟨some 10, some 1.2, some 20, some 95, some 1000, some 20⟩ = .C
    ∧ verificar_limites ⟨some 10, some 1.2, some 20, some 96, some 1000, some 20⟩ = .M
    ∧ (∀ r : Record, tiene_dato_conc r = true → tiene_fuera_rango r = true →
        verificar_limites r = .M) := by
  refine ⟨?_, ?_, ?_⟩
  · norm_num [verificar_limites, tiene_alguna_variable, tiene_dato_conc,
      tiene_no_conc_vacia, tiene_fuera_rango, concentraciones_dentro_rango,
      presente_fuera, fuera_de_rango]
  · norm_num [verificar_limites, tiene_alguna_variable, tiene_dato_conc,
      tiene_no_conc_vacia, tiene_fuera_rango, concentraciones_dentro_rango,
      presente_fuera, fuera_de_rango]
  · intro r hdc hfr
    have hav : tiene_alguna_variable r = true := by
      simp only [tiene_dato_conc, Bool.or_eq_true] at hdc
      simp only [tiene_alguna_variable, Bool.or_eq_true]
      tauto
    simp [verificar_limites, hav, hdc, hfr]

/-- Witness for the amended C7: pm25_conc = 7000 is present and above
its bound 6000 while pm10_conc is present, so the record is M. -/
theorem C7_limites_inclusivos_witness :
    verificar_limites ⟨some 7000, none, none, none, none, some 20⟩ = .M :=
  C7_limites_inclusivos.2.2 ⟨some 7000, none, none, none, none, some 20⟩ (by decide) (by decide)

/-- Claim C10: a record with exactly one concentration present and no
present value out of range is never ND: it is Dudoso when some
auxiliary channel is absent and C when all auxiliaries are present. -/
theorem C10_una_concentracion (r : Record)
    (hone : (r.pm25_conc.isSome ∧ r.pm10_conc = none)
        ∨ (r.pm25_conc = none ∧ r.pm10_conc.isSome))
    (hin : tiene_fuera_rango r = false) :
    verificar_limites r ≠ .ND
    ∧ verificar_limites r = (if tiene_no_conc_vacia r then .Dudoso else .C) := by
  have hdc : tiene_dato_conc r = true := by
    rcases hone with ⟨h1, _⟩ | ⟨_, h2⟩ <;> simp [tiene_dato_conc, *]
  have hav : tiene_alguna_variable r = true := by
    simp only [tiene_dato_conc, Bool.or_eq_true] at hdc
    simp only [tiene_alguna_variable, Bool.or_eq_true]
    tauto
  have hcdr : concentraciones_dentro_rango r = true := by
    simp only [tiene_fuera_rango, Bool.or_eq_false_iff] at hin
    obtain ⟨⟨⟨⟨⟨h1, h2⟩, h3⟩, h4⟩, h5⟩, h6⟩ := hin
    simp [concentraciones_dentro_rango, h1, h6]
  cases htnc : tiene_no_conc_vacia r <;>
    simp [verificar_limites, hav, hdc, hin, hcdr, htnc]

/-- Witness for C10: only pm25_conc = 10 present, in range; every
auxiliary absent, so the classifier answers Dudoso, not ND. -/
theorem C10_una_concentracion_witness :
    verificar_limites ⟨some 10, none, none, none, none, none⟩
      = (if tiene_no_conc_vacia ⟨some 10, none, none, none, none, none⟩
          then Flag.Dudoso else Flag.C) :=
  (C10_una_concentracion ⟨some 10, none, none, none, none, none⟩
    (Or.inl ⟨by decide, rfl⟩) (by decide)).2

/-- Claim C9: the fused flag always lies in {C, D, M, ND} and is never
Dudoso; every component's output lies in the flag enumeration (range
check in {C,D,M,ND,Dudoso}, temporal and internal checks in {C,D,ND});
and a check whose data is absent answers ND: the temporal flag at an
absent position is ND, and the ratio flag with an absent operand is
ND. -/
theorem C9_totalidad :
    (∀ f1 f2 f3 : Flag, estado_final f1 f2 f3 ∈ ([.C, .D, .M, .ND] : List Flag)
        ∧ estado_final f1 f2 f3 ≠ .Dudoso)
    ∧ (∀ r : Record, verificar_limites r ∈ ([.C, .D, .M, .ND, .Dudoso] : List Flag))
    ∧ (∀ serie : List (Option ℚ), ∀ i : ℕ, i < serie.length →
        serie.getD i none = none → (consistencia_temporal serie).getD i .C = .ND)
    ∧ (∀ serie : List (Option ℚ), ∀ i : ℕ, i < serie.length →
        (consistencia_temporal serie).getD i .C ∈ ([.C, .D, .ND] : List Flag))
    ∧ (∀ a b : Option ℚ, a = none ∨ b = none → Bandera_CI (ratio a b) = .ND)
    ∧ (∀ x : RatioVal, Bandera_CI x ∈ ([.C, .D, .ND] : List Flag))
    ∧ verificar_limites ⟨none, none, none, none, none, none⟩ = .ND := by
  refine ⟨by decide, ?_, ?_, ?_, ?_, ?_, by decide⟩
  · intro r
    unfold verificar_limites
    split
    · simp
    · split
      · simp
      · split
        · simp
        · split <;> simp
  · intro serie i h hnone
    rw [ct_getD serie i h]
    unfold ctFlag
    rw [hnone]
  · intro serie i h
    rw [ct_getD serie i h]
    unfold ctFlag
    cases serie.getD i none with
    | none => simp
    | some a =>
      dsimp only
      split
      · cases serie.getD (i - 1) none with
        | none => cases serie.getD (i - 2) none <;> simp
        | some b =>
          cases serie.getD (i - 2) none with
          | none => simp
          | some c =>
            dsimp only
            split <;> simp
      · simp
  · rintro a b (rfl | rfl)
    · rfl
    · cases a <;> rfl
  · intro x
    unfold Bandera_CI
    split
    · simp
    · split <;> simp

/-- Witness for C9: the absent position of [none] gets the temporal
flag ND, the present position of [some 4] gets a flag in {C, D, ND},
and the ratio with both operands absent gets ND. -/
theorem C9_totalidad_witness :
    (consistencia_temporal [none]).getD 0 .C = .ND
    ∧ (consistencia_temporal [some 4]).getD 0 .C ∈ ([.C, .D, .ND] : List Flag)
    ∧ Bandera_CI (ratio none none) = .ND :=
  ⟨C9_totalidad.2.2.1 [none] 0 (by decide) rfl,
   C9_totalidad.2.2.2.1 [some 4] 0 (by decide),
   C9_totalidad.2.2.2.2.1 none none (Or.inl rfl)⟩

end ControlCalidad
